import Mathlib

/-!
Shallow embedding of the real-time audio subsystem of the pymania repository
(`src/mymania/audio.py`): the streaming decoder `AudioFile` (bounded FIFO of
decoded PCM samples with blocking and non-blocking reads, plus the backpressure
protocol of its background fill loop `_fill_fifo`) and the real-time mixer
`AudioPlayer` (the sounddevice output callback `_audio_callback`, the
`resume_song` / `stop_stream` / `play_sound_effect` operations).

Modelling conventions:
* PCM sample values, timestamps and volumes are rationals (`ℚ`); Python float
  arithmetic is modelled exactly over `ℚ`.  Python `//` is `Rat.floor` of the
  quotient and Python `int(...)` is truncation toward zero.
* The stereo FIFO is a list of interleaved sample values (2 per frame); the
  frame count `fifo.samples` of `av.AudioFifo` is `length / 2`.
* Raising a Python exception is an `Except.error`; a function that can neither
  raise nor suspend is a total Lean function.
* `time.perf_counter()`, the callback timestamps and `time.time()` enter as
  explicit parameters.
-/

set_option linter.unusedVariables false

namespace PyMania

/-- Python exception classes that appear in `audio.py`. -/
inductive PyErr
  | assertionError
  | valueError
  | runtimeError
  | attributeError
deriving DecidableEq

/-- The entries of `SAMPLE_FMTS_DATA` in `audio.py` (supported sample formats). -/
inductive SampleFmt
  | fltp
  | s16
deriving DecidableEq

/-- Field `min_val` of `SAMPLE_FMTS_DATA`. -/
def SampleFmt.minVal : SampleFmt → ℚ
  | .fltp => -1
  | .s16 => -32768

/-- Field `max_val` of `SAMPLE_FMTS_DATA`. -/
def SampleFmt.maxVal : SampleFmt → ℚ
  | .fltp => 1
  | .s16 => 32767

/-- Field `zero_val` of `SAMPLE_FMTS_DATA` (`0.0` resp. `0`). -/
def SampleFmt.zeroVal : SampleFmt → ℚ
  | .fltp => 0
  | .s16 => 0

/-- Whether `type_code == 'h'`, i.e. the integer format `s16`. -/
def SampleFmt.isInt : SampleFmt → Bool
  | .fltp => false
  | .s16 => true

/-- Python `int(x)` applied to a float: truncation toward zero. -/
def truncQ (x : ℚ) : ℚ := if 0 ≤ x then ((x.floor : ℤ) : ℚ) else ((-((-x).floor) : ℤ) : ℚ)

/-- The conversion `(int if self.type_code == 'h' else float)(...)` applied in
`_audio_callback` before clipping (float(x) is the identity). -/
def intOrFloat (fmt : SampleFmt) (x : ℚ) : ℚ := if fmt.isInt then truncQ x else x

/-- State of one `AudioFile` (`audio.py`, class `AudioFile`), as visible to the
operations the claims are about.  `fifo` is the interleaved stereo content of
`self._fifo`; `framePts` abstracts the presentation timestamp that the next
frame handed out by `self._fifo.read` carries (`None` is possible, since
`_fill_fifo` erases pts before writing); `readLockHeld` is
`self._read_lock.locked()`; `notFull` is the `self._not_full` event;
`enoughSamplesNum` is `self._enough_samples_num`. -/
structure AudioFileState where
  fifo : List ℚ
  framePts : Option ℚ
  lastReadPts : Option ℚ
  containerOpen : Bool
  eof : Bool
  readLockHeld : Bool
  notFull : Bool
  enoughSamplesNum : ℕ
deriving DecidableEq

/-- The frame count `self._fifo.samples` (stereo: two interleaved values per frame). -/
def fifoFrames (sf : AudioFileState) : ℕ := sf.fifo.length / 2

/-- Model of `av.AudioFifo.read(samples)`: with `samples = 0` everything buffered
is returned (or `None` if the FIFO is empty); with `samples > 0` a frame of
exactly `samples` frames is returned when that many are buffered, else `None`.
The result carries the pts attributed to the returned frame. -/
def fifoRead (sf : AudioFileState) (n : ℕ) : Option (List ℚ × Option ℚ) × AudioFileState :=
  if n = 0 then
    if sf.fifo.isEmpty then (none, sf)
    else (some (sf.fifo, sf.framePts), { sf with fifo := [] })
  else if n ≤ fifoFrames sf then
    (some (sf.fifo.take (2 * n), sf.framePts), { sf with fifo := sf.fifo.drop (2 * n) })
  else (none, sf)

/-- Model of `AudioFile._frame_to_array`: `None` input returns `None` and leaves
`last_read_pts` untouched; otherwise `last_read_pts` is set from the frame's pts
and the interleaved sample data is returned. -/
def frameToArray (sf : AudioFileState) (fr : Option (List ℚ × Option ℚ)) :
    Option (List ℚ) × AudioFileState :=
  match fr with
  | none => (none, sf)
  | some (data, pts) => (some data, { sf with lastReadPts := pts })

/-- Model of `AudioFile.read_nowait` (audio.py lines 350-355): schedule
`self._not_full.set()` on the loop (a closed loop's `RuntimeError` is swallowed),
then return `_frame_to_array(self._fifo.read(samples))` when
`self._fifo.samples >= samples`, else `None`.  It is a total function: it never
suspends and never raises into the caller. -/
def read_nowait (sf : AudioFileState) (samples : ℕ) : Option (List ℚ) × AudioFileState :=
  let sf1 := { sf with notFull := true }
  if samples ≤ fifoFrames sf1 then
    let r := fifoRead sf1 samples
    frameToArray r.2 r.1
  else (none, sf1)

/-- Outcome of entering `AudioFile.read`: an exception raised before consuming
or waiting, an immediate return, or a suspension waiting for more samples. -/
inductive ReadOutcome
  | error (e : PyErr)
  | done (data : Option (List ℚ))
  | waits
deriving DecidableEq

/-- Model of the entry of `AudioFile.read` (audio.py lines 325-348): raise
`RuntimeError` if `self._read_lock.locked()`; raise `ValueError` if
`samples <= 0`; return the samples immediately when enough are buffered (or
whatever remains at EOF); otherwise record `_enough_samples_num`, take
`_read_lock` and suspend on `_enough_samples`. -/
def read_entry (sf : AudioFileState) (samples : ℤ) : ReadOutcome × AudioFileState :=
  if sf.readLockHeld then (.error .runtimeError, sf)
  else if samples ≤ 0 then (.error .valueError, sf)
  else
    let n := samples.toNat
    if n ≤ fifoFrames sf then
      let sf1 := { sf with notFull := true }
      let r := fifoRead sf1 n
      let a := frameToArray r.2 r.1
      (.done a.1, a.2)
    else if sf.eof then
      let r := fifoRead sf 0
      let a := frameToArray r.2 r.1
      (.done a.1, a.2)
    else (.waits, { sf with enoughSamplesNum := n, readLockHeld := true })

/-- One entry of `AudioPlayer._active_sfx`: the tuple
`(sfx_data_array, current_play_pos_frames, trigger_time)`.  The cursor is an
integer (a Python int); `trigger` is the `time.time()` value recorded by
`play_sound_effect`, used by the callback as the identity for removal. -/
structure SfxItem where
  data : List ℚ
  pos : ℤ
  trigger : ℚ
deriving DecidableEq

/-- The value `len(sfx_data) // self.channels` with `channels = 2`. -/
def sfxTotalFrames (it : SfxItem) : ℤ := ((it.data.length / 2 : ℕ) : ℤ)

/-- The cursor advance performed by `_audio_callback` on one active effect:
`frames_to_read = min(samples, total - pos)`, and the position is updated (by
exactly that amount) only when `frames_to_read > 0`. -/
def advanceSfx (samples : ℕ) (it : SfxItem) : SfxItem :=
  let ftr := min (samples : ℤ) (sfxTotalFrames it - it.pos)
  if 0 < ftr then { it with pos := it.pos + ftr } else it

/-- The removal test of `_audio_callback`:
`(sfx_pos_frames + frames_to_read_sfx) >= sfx_total_frames`, evaluated on the
pre-advance position. -/
def sfxFinished (samples : ℕ) (it : SfxItem) : Bool :=
  decide (sfxTotalFrames it ≤ it.pos + min (samples : ℤ) (sfxTotalFrames it - it.pos))

/-- Accumulation of one effect into the float mix buffer `temp_float_sfx_mix`:
when `frames_to_read > 0`, for `i < frames_to_read * channels` the value
`sfx_data[pos * channels + i] * vol` is added to slot `i`. -/
def mixOneSfx (samples : ℕ) (vol : ℚ) (temp : List ℚ) (it : SfxItem) : List ℚ :=
  let ftr := min (samples : ℤ) (sfxTotalFrames it - it.pos)
  if 0 < ftr then
    temp.mapIdx fun j t =>
      if j < ftr.toNat * 2 then t + it.data.getD (it.pos.toNat * 2 + j) 0 * vol else t
  else temp

/-- Result of the sound-effect section of `_audio_callback`: the float mix
buffer and the rebuilt `_active_sfx` deque. -/
structure SfxPhase where
  temp : List ℚ
  active : List SfxItem

/-- The sound-effect section of `_audio_callback` (audio.py lines 121-176).
The most recent effect (last of the deque) is mixed at 60%; the others share
10% equally; each advances per `advanceSfx`; finally the deque is rebuilt,
dropping every item whose `trigger_time` equals that of some finished item
(the source skips the rebuild when nothing finished, which leaves the same
list the empty-set filter does). -/
def sfxPhase (samples total : ℕ) (active : List SfxItem) : SfxPhase :=
  let temp0 : List ℚ := List.replicate total 0
  match active.getLast? with
  | none => ⟨temp0, active⟩
  | some latest =>
    let others := active.dropLast
    let temp1 := mixOneSfx samples (3 / 5) temp0 latest
    let latest1 := advanceSfx samples latest
    let otherVol : ℚ := if others.length = 0 then 0 else (1 / 10) / (others.length : ℚ)
    let temp2 := others.foldl (mixOneSfx samples otherVol) temp1
    let others1 := others.map (advanceSfx samples)
    let finishedTriggers := (active.filter (sfxFinished samples)).map SfxItem.trigger
    ⟨temp2, (others1 ++ [latest1]).filter fun it => decide (it.trigger ∉ finishedTriggers)⟩

/-- Result of the song section of `_audio_callback`: the updated decoder state,
`is_playing_song`, `song_start_time`, and the output buffer after the song was
written. -/
structure SongPhase where
  song : Option AudioFileState
  isPlaying : Bool
  songStart : Option ℚ
  out : List ℚ

/-- The song section of `_audio_callback` (audio.py lines 94-119): under the
song lock, if a song is loaded and playing, `read_nowait(samples)` is called;
when it yields no data and the container is closed, `is_playing_song` is set
false; when it yields data, `song_start_time` is recomputed from
`last_read_pts` (or invalidated when that is `None`) and each sample value is
written as `sample_value // 2` over the silence prefix. -/
def songPhase (song : Option AudioFileState) (isPlaying : Bool) (songStart : Option ℚ)
    (samples : ℕ) (playbackTime offset : ℚ) (out0 : List ℚ) : SongPhase :=
  match song with
  | none => ⟨none, isPlaying, songStart, out0⟩
  | some sf =>
    let r := if isPlaying then read_nowait sf samples else (none, sf)
    match r.1 with
    | none => ⟨some r.2, if r.2.containerOpen then isPlaying else false, songStart, out0⟩
    | some d =>
      ⟨some r.2, isPlaying,
        match r.2.lastReadPts with
        | some pts => some (playbackTime + offset - pts)
        | none => none,
        (d.map fun x => (((x / 2).floor : ℤ) : ℚ)) ++ out0.drop d.length⟩

/-- State of the `AudioPlayer` as visible to the modelled operations.
`hasStream`/`streamActive` model `self._stream is not None` and
`self._stream.active`. -/
structure PlayerState where
  fmt : SampleFmt
  paOffset : Option ℚ
  songStart : Option ℚ
  isPlaying : Bool
  song : Option AudioFileState
  activeSfx : List SfxItem
  hasStream : Bool
  streamActive : Bool
deriving DecidableEq

/-- The state of a fresh `AudioPlayer` right after `__init__`. -/
def initialPlayerState (fmt : SampleFmt) : PlayerState :=
  ⟨fmt, none, none, false, none, [], false, false⟩

/-- Model of `AudioPlayer._clip_sample` (audio.py lines 65-70). -/
def clipSample (fmt : SampleFmt) (s : ℚ) : ℚ :=
  if s > fmt.maxVal then fmt.maxVal else if s < fmt.minVal then fmt.minVal else s

/-- The clock-anchoring step of `_audio_callback` (audio.py lines 77-84): on
the first invocation the offset is `time.perf_counter() - playback_time`,
snapped to exactly `0` when it lies in `[0, 0.001)`; afterwards the stored
offset is reused unchanged. -/
def resolveOffset (paOffset : Option ℚ) (playbackTime now : ℚ) : ℚ :=
  match paOffset with
  | some o => o
  | none =>
    let o := now - playbackTime
    if 0 ≤ o ∧ o < 1 / 1000 then 0 else o

/-- Model of `AudioPlayer._audio_callback` (audio.py lines 72-187) for one
invocation: `samples` is the requested frame count, `playbackTime` the
callback-supplied hardware timestamp (`outputBufferDacTime`, or `currentTime`
on Windows WDM-KS) and `now` the value of `time.perf_counter()`.  Returns the
updated player state and the interleaved contents written to `outdata`. -/
def audio_callback (st : PlayerState) (samples : ℕ) (playbackTime now : ℚ) :
    PlayerState × List ℚ :=
  let offset := resolveOffset st.paOffset playbackTime now
  let total := samples * 2
  let out0 : List ℚ := List.replicate total st.fmt.zeroVal
  let sp := songPhase st.song st.isPlaying st.songStart samples playbackTime offset out0
  let xp := sfxPhase samples total st.activeSfx
  ({ st with
      paOffset := some offset
      song := sp.song
      isPlaying := sp.isPlaying
      songStart := sp.songStart
      activeSfx := xp.active },
    (List.zipWith (fun o t => clipSample st.fmt (intOrFloat st.fmt (o + t * st.fmt.maxVal)))
        sp.out xp.temp).map (clipSample st.fmt))

/-- Model of `AudioPlayer.resume_song` (audio.py lines 224-228): three
`assert` statements (stream active, song loaded, not already playing), then the
playing flag is switched on.  A failed `assert` raises `AssertionError`, the
concrete realization of the spec's `PreconditionError`. -/
def resume_song (st : PlayerState) : Except PyErr PlayerState :=
  if st.hasStream = true ∧ st.streamActive = true then
    if st.song.isSome then
      if st.isPlaying then .error .assertionError
      else .ok { st with isPlaying := true }
    else .error .assertionError
  else .error .assertionError

/-- Effect of `AudioFile.close` (audio.py lines 357-364) on the decoder state:
the fill task is cancelled, `self._fifo.read()` drains the FIFO, `_cleanup`
sets `_eof`, wakes readers and closes the container. -/
def closeAudioFile (sf : AudioFileState) : AudioFileState :=
  { sf with fifo := [], eof := true, containerOpen := false }

/-- Model of `AudioPlayer.stop_stream` (audio.py lines 212-222).  The very
first statement is `await self.song.close()`: when `self.song` is `None` (no
song was ever loaded) this raises `AttributeError`.  Otherwise the song is
closed, and if the stream exists and is active, playback stops, the effects
deque is cleared and the stream is closed and dropped. -/
def stop_stream (st : PlayerState) : Except PyErr PlayerState :=
  match st.song with
  | none => .error .attributeError
  | some sf =>
    let st1 := { st with song := some (closeAudioFile sf) }
    if st1.hasStream = true ∧ st1.streamActive = true then
      .ok { st1 with
        isPlaying := false
        activeSfx := []
        hasStream := false
        streamActive := false }
    else .ok st1

/-- Model of `AudioPlayer.play_sound_effect` (audio.py lines 230-238): with an
inactive stream or empty payload the call logs and returns without change;
otherwise the tuple `(sfx_data, 0, time.time())` is appended to the deque. -/
def play_sound_effect (st : PlayerState) (sfxData : List ℚ) (now : ℚ) : PlayerState :=
  if ¬(st.hasStream = true ∧ st.streamActive = true) then st
  else if sfxData = [] then st
  else { st with activeSfx := st.activeSfx ++ [⟨sfxData, 0, now⟩] }

/-- Abstract state of the decode pipeline of one `AudioFile`, in samples:
`fifo` is `self._fifo.samples`, `req` is `self._enough_samples_num`, and
`waiting` says the fill loop is suspended in
`while self._fifo.samples >= self._buffer_samples: ... await self._not_full.wait()`. -/
structure FillState where
  fifo : ℕ
  req : ℕ
  waiting : Bool
deriving DecidableEq

/-- Small-step reachability for the backpressure protocol of
`AudioFile._fill_fifo` (audio.py lines 276-302) interleaved with its consumers,
with buffer bound `B = self._buffer_samples` and maximal decode chunk `C`
samples.  `reqOK` constrains which demands a blocking `read` may register.

* `decode`: one loop iteration writes a resampled chunk of `c` samples
  (`0 < c ≤ C`); afterwards, if a registered demand is still unmet
  (`0 < req` and `fifo < req`) the loop `continue`s past the backpressure
  check, otherwise it suspends exactly when `B ≤ fifo`.
* `wake`: `self._not_full` was set (by `read` or `read_nowait`); the suspended
  loop re-evaluates the `while` condition and stays suspended iff `B ≤ fifo`.
* `drain`: a consumer removes `n` buffered samples (`read` / `read_nowait`).
* `register`: `read` stores `self._enough_samples_num = samples` after finding
  `fifo < samples`.
* `unregister`: the woken reader resets `self._enough_samples_num = 0`. -/
inductive FillReach (B C : ℕ) (reqOK : ℕ → Prop) : FillState → Prop
  | init : FillReach B C reqOK ⟨0, 0, false⟩
  | decode {s : FillState} (c : ℕ) (hc : 0 < c) (hC : c ≤ C) (hw : s.waiting = false)
      (hs : FillReach B C reqOK s) :
      FillReach B C reqOK
        ⟨s.fifo + c, s.req,
          if 0 < s.req ∧ s.fifo + c < s.req then false else decide (B ≤ s.fifo + c)⟩
  | wake {s : FillState} (hw : s.waiting = true) (hs : FillReach B C reqOK s) :
      FillReach B C reqOK ⟨s.fifo, s.req, decide (B ≤ s.fifo)⟩
  | drain {s : FillState} (n : ℕ) (hn : n ≤ s.fifo) (hs : FillReach B C reqOK s) :
      FillReach B C reqOK ⟨s.fifo - n, s.req, s.waiting⟩
  | register {s : FillState} (n : ℕ) (hn : s.fifo < n) (hok : reqOK n)
      (hs : FillReach B C reqOK s) :
      FillReach B C reqOK ⟨s.fifo, n, s.waiting⟩
  | unregister {s : FillState} (hs : FillReach B C reqOK s) :
      FillReach B C reqOK ⟨s.fifo, 0, s.waiting⟩

/-- Concrete decoder state with a held read lock, for witnesses. -/
def sfLockedW : AudioFileState := ⟨[], none, none, true, false, true, false, 0⟩

/-- Concrete idle decoder state holding one buffered frame, for witnesses. -/
def sfIdleW : AudioFileState := ⟨[1, 1], none, none, true, false, false, false, 0⟩

/-- C1: for every positive frame count `n` and every decoder state,
`read_nowait(n)` (a total function: it neither suspends nor raises) returns
`None` exactly when fewer than `n` frames are buffered, returns a frame of
exactly `n` frames (`2 * n` interleaved stereo values) otherwise, and consumes
nothing in the insufficient-data case. -/
theorem c1_read_nowait_all_or_nothing (sf : AudioFileState) (n : ℕ) (hn : 0 < n) :
    ((read_nowait sf n).1 = none ↔ fifoFrames sf < n) ∧
    (∀ d, (read_nowait sf n).1 = some d → d.length = 2 * n) ∧
    (fifoFrames sf < n → (read_nowait sf n).2.fifo = sf.fifo) := by
  have hn' : n ≠ 0 := by omega
  have hframes : fifoFrames { sf with notFull := true } = fifoFrames sf := rfl
  by_cases h : n ≤ fifoFrames sf
  · have h2 : 2 * n ≤ sf.fifo.length := by
      have := (Nat.le_div_iff_mul_le (by norm_num : 0 < 2)).1 h
      omega
    refine ⟨?_, ?_, ?_⟩
    · simp only [read_nowait, fifoRead, frameToArray, hframes, h, if_true, hn', if_false,
        if_pos h]
      constructor
      · intro hcon
        simp at hcon
      · intro hlt
        omega
    · intro d hd
      simp only [read_nowait, fifoRead, frameToArray, hframes, h, hn', if_false, if_pos h] at hd
      simp at hd
      subst hd
      simp [List.length_take]
      omega
    · intro hlt
      omega
  · have hlt : fifoFrames sf < n := by omega
    refine ⟨?_, ?_, ?_⟩
    · simp [read_nowait, hframes, h, hlt]
    · intro d hd
      simp [read_nowait, hframes, h] at hd
    · intro _
      simp [read_nowait, hframes, h]

/-- Witness for C1 at a concrete state and request. -/
theorem c1_witness :
    (((read_nowait sfIdleW 1).1 = none ↔ fifoFrames sfIdleW < 1) ∧
      (∀ d, (read_nowait sfIdleW 1).1 = some d → d.length = 2 * 1) ∧
      (fifoFrames sfIdleW < 1 → (read_nowait sfIdleW 1).2.fifo = sfIdleW.fifo)) :=
  c1_read_nowait_all_or_nothing sfIdleW 1 (by norm_num)

/-- C9: entering the blocking `read` raises `RuntimeError` (the spec's
`ConcurrencyError`) whenever another blocking read is outstanding (holds
`self._read_lock`), and otherwise rejects every non-positive request with
`ValueError` (the spec's `InvalidArgument`); in both cases the decoder state is
returned unchanged, so nothing was consumed and nothing waited. -/
theorem c9_read_guards (sf : AudioFileState) (samples : ℤ) :
    (sf.readLockHeld = true → read_entry sf samples = (.error .runtimeError, sf)) ∧
    (sf.readLockHeld = false → samples ≤ 0 → read_entry sf samples = (.error .valueError, sf)) := by
  constructor
  · intro h
    simp [read_entry, h]
  · intro h hs
    simp [read_entry, h, hs]

/-- Witness for C9 at concrete states and requests. -/
theorem c9_witness :
    read_entry sfLockedW 5 = (.error .runtimeError, sfLockedW) ∧
    read_entry sfIdleW (-1) = (.error .valueError, sfIdleW) :=
  ⟨(c9_read_guards sfLockedW 5).1 rfl, (c9_read_guards sfIdleW (-1)).2 rfl (by norm_num)⟩

theorem fmt_min_le_max (fmt : SampleFmt) : fmt.minVal ≤ fmt.maxVal := by
  cases fmt <;> norm_num [SampleFmt.minVal, SampleFmt.maxVal]

theorem clipSample_bounds (fmt : SampleFmt) (s : ℚ) :
    fmt.minVal ≤ clipSample fmt s ∧ clipSample fmt s ≤ fmt.maxVal := by
  have h := fmt_min_le_max fmt
  unfold clipSample
  split
  · exact ⟨h, le_rfl⟩
  · rename_i h1
    split
    · exact ⟨le_rfl, h⟩
    · rename_i h2
      push_neg at h1 h2
      exact ⟨h2, h1⟩

theorem audio_callback_out_eq (st : PlayerState) (samples : ℕ) (pt now : ℚ) :
    (audio_callback st samples pt now).2 =
      (List.zipWith
          (fun o t => clipSample st.fmt (intOrFloat st.fmt (o + t * st.fmt.maxVal)))
          (songPhase st.song st.isPlaying st.songStart samples pt
            (resolveOffset st.paOffset pt now)
            (List.replicate (samples * 2) st.fmt.zeroVal)).out
          (sfxPhase samples (samples * 2) st.activeSfx).temp).map (clipSample st.fmt) := rfl

theorem audio_callback_paOffset_eq (st : PlayerState) (samples : ℕ) (pt now : ℚ) :
    (audio_callback st samples pt now).1.paOffset =
      some (resolveOffset st.paOffset pt now) := rfl

theorem audio_callback_songStart_eq (st : PlayerState) (samples : ℕ) (pt now : ℚ) :
    (audio_callback st samples pt now).1.songStart =
      (songPhase st.song st.isPlaying st.songStart samples pt
        (resolveOffset st.paOffset pt now)
        (List.replicate (samples * 2) st.fmt.zeroVal)).songStart := rfl

theorem audio_callback_activeSfx_eq (st : PlayerState) (samples : ℕ) (pt now : ℚ) :
    (audio_callback st samples pt now).1.activeSfx =
      (sfxPhase samples (samples * 2) st.activeSfx).active := rfl

/-- C2: every sample value the mixing callback writes to the output buffer lies
within the configured format's `[min_value, max_value]`, for every player
state (any number of active effects, any song data) and every request. -/
theorem c2_callback_output_clipped (st : PlayerState) (samples : ℕ) (pt now : ℚ) (x : ℚ)
    (hx : x ∈ (audio_callback st samples pt now).2) :
    st.fmt.minVal ≤ x ∧ x ≤ st.fmt.maxVal := by
  rw [audio_callback_out_eq] at hx
  rcases List.mem_map.1 hx with ⟨y, -, rfl⟩
  exact clipSample_bounds st.fmt y

/-- Witness for C2 at a concrete invocation. -/
theorem c2_witness :
    (initialPlayerState .s16).fmt.minVal ≤ (0 : ℚ) ∧
      (0 : ℚ) ≤ (initialPlayerState .s16).fmt.maxVal :=
  c2_callback_output_clipped (initialPlayerState .s16) 1 0 0 0 (by
    norm_num [audio_callback, initialPlayerState, songPhase, sfxPhase, resolveOffset,
      clipSample, intOrFloat, truncQ, mixOneSfx, SampleFmt.zeroVal, SampleFmt.maxVal,
      SampleFmt.minVal, SampleFmt.isInt, List.replicate, Rat.floor_def'])

/-- Concrete player state from which `resume_song` succeeds, for witnesses. -/
def stResumableW : PlayerState := ⟨.s16, none, none, false, some sfIdleW, [], true, true⟩

/-- The state after `resume_song stResumableW`. -/
def stPlayingW : PlayerState := ⟨.s16, none, none, true, some sfIdleW, [], true, true⟩

/-- C4: `resume_song` fails with the `assert`-raised error whenever the stream
is missing/inactive, no song is loaded, or a song is already playing; and from
every state in which it succeeds, the playing flag is set and an immediately
following second call fails. -/
theorem c4_resume_guards (st : PlayerState) :
    ((¬(st.hasStream = true ∧ st.streamActive = true) ∨ st.song = none ∨ st.isPlaying = true) →
      resume_song st = .error .assertionError) ∧
    (∀ st2, resume_song st = .ok st2 →
      st2.isPlaying = true ∧ resume_song st2 = .error .assertionError) := by
  constructor
  · intro h
    unfold resume_song
    rcases h with h | h | h
    · rw [if_neg h]
    · simp [h]
    · simp [h]
  · intro st2 hok
    unfold resume_song at hok
    split_ifs at hok with h1 h2 h3
    all_goals first
      | exact Except.noConfusion hok
      | (simp only [Except.ok.injEq] at hok
         subst hok
         exact ⟨rfl, by simp [resume_song, h1.1, h1.2, h2]⟩)

/-- Witness for C4: one state where the call succeeds (flag set, second call
fails) and one state where the guard fires. -/
theorem c4_witness :
    (stPlayingW.isPlaying = true ∧ resume_song stPlayingW = .error .assertionError) ∧
    resume_song (initialPlayerState .s16) = .error .assertionError :=
  ⟨(c4_resume_guards stResumableW).2 stPlayingW rfl,
    (c4_resume_guards (initialPlayerState .s16)).1 (Or.inl (by norm_num [initialPlayerState]))⟩

/-- C5 (code bug): `stop_stream` on a freshly constructed player — stream
never started, no song ever loaded — raises `AttributeError`, because its
first statement is `await self.song.close()` with `self.song` equal to `None`;
the claim (and the spec's "must be safe to call even if never started")
requires it to complete without raising. -/
theorem c5_stop_stream_crashes_without_song :
    stop_stream (initialPlayerState .s16) = .error .attributeError := rfl

/-- C6: whenever the callback obtains song samples, `song_start_time` is
recomputed as `playback_time + pa_timestamp_offset - pts` when the consumed
frame carries a timestamp, and is invalidated to `None` when it does not. -/
theorem c6_song_start_recompute (st : PlayerState) (samples : ℕ) (pt now : ℚ)
    (sf : AudioFileState) (d : List ℚ)
    (hsong : st.song = some sf) (hplay : st.isPlaying = true)
    (hread : (read_nowait sf samples).1 = some d) :
    ((read_nowait sf samples).2.lastReadPts = none →
      (audio_callback st samples pt now).1.songStart = none) ∧
    (∀ pts, (read_nowait sf samples).2.lastReadPts = some pts →
      (audio_callback st samples pt now).1.songStart =
        some (pt + resolveOffset st.paOffset pt now - pts)) := by
  constructor
  · intro hpts
    rw [audio_callback_songStart_eq, hsong]
    simp only [songPhase, hplay, if_true, hread, hpts]
  · intro pts hpts
    rw [audio_callback_songStart_eq, hsong]
    simp only [songPhase, hplay, if_true, hread, hpts]

/-- Concrete decoder state whose next frame carries pts `1/2`, for witnesses. -/
def sfSongW : AudioFileState := ⟨[4, 4], some (1 / 2), none, true, false, false, false, 0⟩

/-- Concrete playing player state with `sfSongW` loaded, for witnesses. -/
def stSongW : PlayerState := ⟨.s16, some 0, none, true, some sfSongW, [], true, true⟩

/-- Witness for C6 at a concrete callback with a timestamped frame. -/
theorem c6_witness :
    (audio_callback stSongW 1 0 0).1.songStart =
      some (0 + resolveOffset stSongW.paOffset 0 0 - 1 / 2) :=
  (c6_song_start_recompute stSongW 1 0 0 sfSongW [4, 4] rfl rfl rfl).2 (1 / 2) rfl

/-- C7 (amended): the offset is frozen once computed; on the first callback it
is stored as `now - playback_time`, snapped to exactly `0` only when that
difference lies in `[0, 0.001)` — a negative sub-millisecond difference is
stored as-is, not zeroed. -/
theorem c7_offset_freeze (st : PlayerState) (samples : ℕ) (pt now : ℚ) :
    (∀ o, st.paOffset = some o → (audio_callback st samples pt now).1.paOffset = some o) ∧
    (st.paOffset = none →
      (audio_callback st samples pt now).1.paOffset =
        some (if 0 ≤ now - pt ∧ now - pt < 1 / 1000 then 0 else now - pt)) := by
  constructor
  · intro o h
    rw [audio_callback_paOffset_eq]
    simp [resolveOffset, h]
  · intro h
    rw [audio_callback_paOffset_eq]
    simp [resolveOffset, h]

/-- Concrete player state with an already frozen offset, for witnesses. -/
def stOffsetW : PlayerState := ⟨.s16, some 5, none, false, none, [], false, false⟩

/-- Witness for C7 at concrete callbacks (frozen case and first-call case). -/
theorem c7_witness :
    (audio_callback stOffsetW 1 0 0).1.paOffset = some 5 ∧
    (audio_callback (initialPlayerState .s16) 1 0 (1 / 2000)).1.paOffset =
      some (if 0 ≤ (1 / 2000 : ℚ) - 0 ∧ (1 / 2000 : ℚ) - 0 < 1 / 1000 then 0 else (1 / 2000 : ℚ) - 0) :=
  ⟨(c7_offset_freeze stOffsetW 1 0 0).1 5 rfl,
    (c7_offset_freeze (initialPlayerState .s16) 1 0 (1 / 2000)).2 rfl⟩

/-- C7 counterexample: on a first callback where `time.perf_counter()` is
`0` and the hardware timestamp is `1/2000`, the difference `-1/2000` has
absolute value below one millisecond, yet the stored offset is `-1/2000`,
not zero: the source snaps only differences in `[0, 0.001)`. -/
theorem c7_counterexample :
    |(0 : ℚ) - 1 / 2000| < 1 / 1000 ∧
    (initialPlayerState .s16).paOffset = none ∧
    (audio_callback (initialPlayerState .s16) 1 (1 / 2000) 0).1.paOffset = some (-(1 / 2000)) ∧
    (-(1 / 2000) : ℚ) ≠ 0 := by
  refine ⟨by rw [abs_lt]; norm_num, rfl, ?_, by norm_num⟩
  rw [audio_callback_paOffset_eq]
  norm_num [resolveOffset, initialPlayerState]

/-- The cursor invariant of the active-effects collection: every instance's
playback cursor lies between `0` and the frame count of its sample buffer. -/
def SfxInv (l : List SfxItem) : Prop :=
  ∀ it ∈ l, 0 ≤ it.pos ∧ it.pos ≤ sfxTotalFrames it

theorem advanceSfx_data (samples : ℕ) (it : SfxItem) :
    (advanceSfx samples it).data = it.data := by
  simp only [advanceSfx]
  split <;> rfl

theorem advanceSfx_trigger (samples : ℕ) (it : SfxItem) :
    (advanceSfx samples it).trigger = it.trigger := by
  simp only [advanceSfx]
  split <;> rfl

theorem sfxTotalFrames_advance (samples : ℕ) (it : SfxItem) :
    sfxTotalFrames (advanceSfx samples it) = sfxTotalFrames it := by
  unfold sfxTotalFrames
  rw [advanceSfx_data]

theorem advanceSfx_inv (samples : ℕ) (it : SfxItem)
    (h : 0 ≤ it.pos ∧ it.pos ≤ sfxTotalFrames it) :
    0 ≤ (advanceSfx samples it).pos ∧
      (advanceSfx samples it).pos ≤ sfxTotalFrames (advanceSfx samples it) := by
  rw [sfxTotalFrames_advance]
  simp only [advanceSfx]
  split
  · rename_i hftr
    simp only
    omega
  · exact h

theorem sfxPhase_active_subset_advance (samples total : ℕ) (l : List SfxItem) :
    ∀ it ∈ (sfxPhase samples total l).active, it ∈ l ∨ ∃ it0 ∈ l, it = advanceSfx samples it0 := by
  unfold sfxPhase
  cases hl : l.getLast? with
  | none =>
    intro it hit
    exact Or.inl hit
  | some latest =>
    intro it hit
    simp only at hit
    have hit2 := List.mem_of_mem_filter hit
    rcases List.mem_append.1 hit2 with hmem | hmem
    · rcases List.mem_map.1 hmem with ⟨it0, hit0, rfl⟩
      exact Or.inr ⟨it0, List.dropLast_subset l hit0, rfl⟩
    · rw [List.mem_singleton] at hmem
      subst hmem
      have hlast : l.dropLast ++ [latest] = l :=
        List.dropLast_append_getLast? latest (by rw [hl]; rfl)
      have hmem2 : latest ∈ l := by
        rw [← hlast]
        exact List.mem_append.2 (Or.inr (List.mem_singleton.2 rfl))
      exact Or.inr ⟨latest, hmem2, rfl⟩

/-- C10: the callback, `play_sound_effect` (which inserts cursor `0`),
`resume_song` and `stop_stream` all preserve the cursor invariant
`0 ≤ playback_cursor ≤ total frames of the sample buffer`. -/
theorem c10_cursor_invariant (st : PlayerState) (samples : ℕ) (pt now trig : ℚ) (d : List ℚ)
    (h : SfxInv st.activeSfx) :
    SfxInv (audio_callback st samples pt now).1.activeSfx ∧
    SfxInv (play_sound_effect st d trig).activeSfx ∧
    (∀ st2, resume_song st = .ok st2 → SfxInv st2.activeSfx) ∧
    (∀ st2, stop_stream st = .ok st2 → SfxInv st2.activeSfx) := by
  refine ⟨?_, ?_, ?_, ?_⟩
  · rw [audio_callback_activeSfx_eq]
    intro it hit
    rcases sfxPhase_active_subset_advance samples (samples * 2) st.activeSfx it hit with
      hmem | ⟨it0, hit0, rfl⟩
    · exact h it hmem
    · exact advanceSfx_inv samples it0 (h it0 hit0)
  · unfold play_sound_effect
    split
    · exact h
    · split
      · exact h
      · intro it hit
        rcases List.mem_append.1 hit with hmem | hmem
        · exact h it hmem
        · rw [List.mem_singleton] at hmem
          subst hmem
          refine ⟨le_refl 0, ?_⟩
          unfold sfxTotalFrames
          positivity
  · intro st2 hok
    unfold resume_song at hok
    split_ifs at hok
    all_goals first
      | exact Except.noConfusion hok
      | (simp only [Except.ok.injEq] at hok
         subst hok
         exact h)
  · intro st2 hok
    unfold stop_stream at hok
    rcases hsong : st.song with _ | sf
    · rw [hsong] at hok
      exact Except.noConfusion hok
    · rw [hsong] at hok
      simp only at hok
      split_ifs at hok
      all_goals
        simp only [Except.ok.injEq] at hok
        subst hok
      · intro it hit
        simp at hit
      · exact h

/-- Concrete invariant-satisfying player state, for witnesses. -/
def stSfxW : PlayerState := ⟨.s16, some 0, none, false, none, [⟨[1, 1, 1, 1], 1, 0⟩], true, true⟩

/-- Witness for C10 at a concrete state and inputs. -/
theorem c10_witness :
    SfxInv (audio_callback stSfxW 1 0 0).1.activeSfx ∧
    SfxInv (play_sound_effect stSfxW [2, 2] 7).activeSfx ∧
    (∀ st2, resume_song stSfxW = .ok st2 → SfxInv st2.activeSfx) ∧
    (∀ st2, stop_stream stSfxW = .ok st2 → SfxInv st2.activeSfx) :=
  c10_cursor_invariant stSfxW 1 0 0 7 [2, 2] (by
    intro it hit
    simp only [stSfxW, List.mem_singleton] at hit
    subst hit
    norm_num [sfxTotalFrames])

theorem advanceSfx_pos (samples : ℕ) (it : SfxItem) :
    (advanceSfx samples it).pos =
      if 0 < min (samples : ℤ) (sfxTotalFrames it - it.pos) then
        it.pos + min (samples : ℤ) (sfxTotalFrames it - it.pos)
      else it.pos := by
  simp only [advanceSfx]
  split <;> rfl

/-- With a positive request, an effect's advanced cursor stays short of its
buffer length exactly when the source's removal flag is not raised. -/
theorem advanceSfx_kept_iff (samples : ℕ) (hs : 1 ≤ samples) (it : SfxItem) :
    ((advanceSfx samples it).pos < sfxTotalFrames (advanceSfx samples it)) ↔
      sfxFinished samples it = false := by
  rw [sfxTotalFrames_advance, advanceSfx_pos]
  simp only [sfxFinished, decide_eq_false_iff_not, not_le]
  have hs' : (1 : ℤ) ≤ (samples : ℤ) := by exact_mod_cast hs
  split
  · omega
  · omega

theorem mem_finished_triggers (samples : ℕ) {l : List SfxItem}
    (hd : (l.map SfxItem.trigger).Nodup) {it : SfxItem} (hit : it ∈ l) :
    it.trigger ∈ (l.filter (sfxFinished samples)).map SfxItem.trigger ↔
      sfxFinished samples it = true := by
  constructor
  · intro h
    rcases List.mem_map.1 h with ⟨j, hj, hjt⟩
    have hjl : j ∈ l := List.mem_of_mem_filter hj
    have hfin : sfxFinished samples j = true := List.of_mem_filter hj
    have hj_eq : j = it := List.inj_on_of_nodup_map hd hjl hit hjt
    rw [hj_eq] at hfin
    exact hfin
  · intro h
    exact List.mem_map.2 ⟨it, List.mem_filter.2 ⟨hit, h⟩, rfl⟩

/-- Structure of the rebuilt `_active_sfx` deque after one callback, provided
no two active instances share a `trigger_time`: every instance advances by
`min(samples, remaining)` frames and is kept exactly when its cursor is still
short of its buffer length. -/
theorem sfxPhase_active_eq (samples total : ℕ) (l : List SfxItem) (hs : 1 ≤ samples)
    (hd : (l.map SfxItem.trigger).Nodup) :
    (sfxPhase samples total l).active =
      (l.map (advanceSfx samples)).filter fun it => decide (it.pos < sfxTotalFrames it) := by
  unfold sfxPhase
  cases hl : l.getLast? with
  | none =>
    have hnil : l = [] := List.getLast?_eq_none_iff.1 hl
    subst hnil
    rfl
  | some latest =>
    have hlast : l.dropLast ++ [latest] = l :=
      List.dropLast_append_getLast? latest (by rw [hl]; rfl)
    simp only
    have hsingle : [advanceSfx samples latest] = List.map (advanceSfx samples) [latest] := rfl
    rw [hsingle, ← List.map_append, hlast]
    apply List.filter_congr
    intro it2 hit2
    rcases List.mem_map.1 hit2 with ⟨it0, hit0, rfl⟩
    rw [advanceSfx_trigger]
    rw [decide_eq_decide]
    rw [advanceSfx_kept_iff samples hs it0]
    constructor
    · intro hnot
      rcases Bool.eq_false_or_eq_true (sfxFinished samples it0) with h | h
      · exact absurd ((mem_finished_triggers samples hd hit0).2 h) hnot
      · exact h
    · intro hfalse hmem
      rw [(mem_finished_triggers samples hd hit0).1 hmem] at hfalse
      cases hfalse

/-- C8 (amended): on every callback with a positive frame request, provided
the active instances carry pairwise distinct trigger timestamps, each active
effect advances its cursor by exactly the frames consumed
(`min(samples, remaining)`, when positive) and an instance survives the
rebuild exactly when its cursor has not reached its buffer length. -/
theorem c8_effect_advance_and_removal (st : PlayerState) (samples : ℕ) (pt now : ℚ)
    (hs : 1 ≤ samples) (hd : (st.activeSfx.map SfxItem.trigger).Nodup) :
    (audio_callback st samples pt now).1.activeSfx =
      (st.activeSfx.map (advanceSfx samples)).filter
        fun it => decide (it.pos < sfxTotalFrames it) := by
  rw [audio_callback_activeSfx_eq]
  exact sfxPhase_active_eq samples (samples * 2) st.activeSfx hs hd

/-- Concrete player state with two active effects with distinct triggers, for
the C8 witness. -/
def stC8W : PlayerState :=
  ⟨.s16, some 0, none, false, none, [⟨[1, 1], 0, 0⟩, ⟨[2, 2, 2, 2], 0, 1⟩], true, true⟩

/-- Witness for C8 at a concrete callback. -/
theorem c8_witness :
    (audio_callback stC8W 1 0 0).1.activeSfx =
      (stC8W.activeSfx.map (advanceSfx 1)).filter
        fun it => decide (it.pos < sfxTotalFrames it) :=
  c8_effect_advance_and_removal stC8W 1 0 0 (by norm_num) (by decide)

/-- Concrete player state with an active stream and no effects yet. -/
def stC8Base : PlayerState := ⟨.s16, some 0, none, false, none, [], true, true⟩

/-- Concrete player state with two active effects sharing trigger time `0`:
the most recent one has a 4-frame buffer, the other a 2-frame buffer. -/
def stC8Cex : PlayerState :=
  ⟨.s16, some 0, none, false, none, [⟨[1, 1, 1, 1], 0, 0⟩, ⟨[2, 2, 2, 2, 2, 2, 2, 2], 0, 0⟩],
    true, true⟩

/-- C8 counterexample: with two instances sharing a `trigger_time` (two
`time.time()` calls may return the same value in rapid succession), a callback
for 2 frames finishes the 2-frame instance, and the rebuild — which removes by
trigger-time membership — also removes the 4-frame instance even though its
advanced cursor (2) has not reached its buffer length (4): the collection ends
empty, refuting "removed if and only if its cursor has reached its buffer
length". -/
theorem c8_counterexample :
    play_sound_effect (play_sound_effect stC8Base [1, 1, 1, 1] 0) [2, 2, 2, 2, 2, 2, 2, 2] 0 =
      stC8Cex ∧
    sfxTotalFrames ⟨[2, 2, 2, 2, 2, 2, 2, 2], 0, 0⟩ = 4 ∧
    advanceSfx 2 ⟨[2, 2, 2, 2, 2, 2, 2, 2], 0, 0⟩ = ⟨[2, 2, 2, 2, 2, 2, 2, 2], 2, 0⟩ ∧
    (audio_callback stC8Cex 2 0 0).1.activeSfx = [] := by
  refine ⟨by decide, by decide, by decide, ?_⟩
  rw [audio_callback_activeSfx_eq]
  decide

/-- Inductive invariant of the fill system when every registered blocking-read
demand is at most the buffer bound `B`: the demand stays at most `B`, a
running (non-suspended) loop always sees a fill level strictly below `B`, and
the fill level stays strictly below `B + C`. -/
theorem fillReach_inv (B C : ℕ) (hB : 1 ≤ B) {s : FillState}
    (h : FillReach B C (fun n => n ≤ B) s) :
    s.req ≤ B ∧ (s.waiting = false → s.fifo < B) ∧ s.fifo < B + C := by
  induction h with
  | init =>
    dsimp only
    exact ⟨by omega, fun _ => by omega, by omega⟩
  | decode c hc hC hw hs ih =>
    obtain ⟨ih1, ih2, ih3⟩ := ih
    have hlt := ih2 hw
    dsimp only
    refine ⟨ih1, ?_, by omega⟩
    intro hwait
    split at hwait
    · rename_i hcon
      omega
    · have := of_decide_eq_false hwait
      omega
  | wake hw hs ih =>
    obtain ⟨ih1, ih2, ih3⟩ := ih
    dsimp only
    refine ⟨ih1, ?_, ih3⟩
    intro hwait
    have := of_decide_eq_false hwait
    omega
  | drain n hn hs ih =>
    obtain ⟨ih1, ih2, ih3⟩ := ih
    dsimp only
    exact ⟨ih1, fun hw => by have := ih2 hw; omega, by omega⟩
  | register n hn hok hs ih =>
    obtain ⟨ih1, ih2, ih3⟩ := ih
    dsimp only
    exact ⟨hok, ih2, ih3⟩
  | unregister hs ih =>
    obtain ⟨ih1, ih2, ih3⟩ := ih
    dsimp only
    exact ⟨by omega, ih2, ih3⟩

/-- C3 (amended): in every reachable state of the fill/consume system in which
each concurrent blocking read demands at most the buffer bound `B` samples,
the buffered amount stays strictly below `B` plus one maximal decode chunk
`C` — in particular it never exceeds `B` plus one decode chunk.  (Dividing by
the sample rate, this is the claimed duration bound `buffer_time` plus one
chunk.) -/
theorem c3_backpressure_bound (B C : ℕ) (s : FillState) (hB : 1 ≤ B)
    (h : FillReach B C (fun n => n ≤ B) s) : s.fifo < B + C :=
  (fillReach_inv B C hB h).2.2

/-- Witness for C3 at the concrete initial state with `B = 2`, `C = 1`. -/
theorem c3_witness : (⟨0, 0, false⟩ : FillState).fifo < 2 + 1 :=
  c3_backpressure_bound 2 1 ⟨0, 0, false⟩ (by norm_num) FillReach.init

/-- C3 counterexample: with buffer bound `B = 2` samples and chunk size
`C = 1`, a blocking read that registers a demand of `10` samples makes the
fill loop `continue` past the backpressure gate (source comment: "read() may
want more samples than buffer size"), reaching a state with `4 > B + C`
buffered samples — the claimed bound does not hold for all states of the
decoder. -/
theorem c3_counterexample :
    ∃ s : FillState, FillReach 2 1 (fun _ => True) s ∧ 2 + 1 < s.fifo := by
  refine ⟨⟨4, 10, false⟩, ?_, by norm_num⟩
  have h0 : FillReach 2 1 (fun _ => True) ⟨0, 0, false⟩ := FillReach.init
  have h1 : FillReach 2 1 (fun _ => True) ⟨0, 10, false⟩ :=
    FillReach.register (s := ⟨0, 0, false⟩) 10 (by norm_num) trivial h0
  have h2 : FillReach 2 1 (fun _ => True) ⟨1, 10, false⟩ := by
    have h := FillReach.decode (s := ⟨0, 10, false⟩) 1 one_pos le_rfl rfl h1
    norm_num at h
    exact h
  have h3 : FillReach 2 1 (fun _ => True) ⟨2, 10, false⟩ := by
    have h := FillReach.decode (s := ⟨1, 10, false⟩) 1 one_pos le_rfl rfl h2
    norm_num at h
    exact h
  have h4 : FillReach 2 1 (fun _ => True) ⟨3, 10, false⟩ := by
    have h := FillReach.decode (s := ⟨2, 10, false⟩) 1 one_pos le_rfl rfl h3
    norm_num at h
    exact h
  have h5 : FillReach 2 1 (fun _ => True) ⟨4, 10, false⟩ := by
    have h := FillReach.decode (s := ⟨3, 10, false⟩) 1 one_pos le_rfl rfl h4
    norm_num at h
    exact h
  exact h5

end PyMania
